import Mathlib

/-!
# Telepresence traffic manager: connection pool, intercept RPCs, watch loops, version

A shallow embedding of

* `cmd/traffic/cmd/manager/systema.go` (`systemaCredentials.GetRequestMetadata`,
  `systemaPool.Get`, `systemaPool.Done`),
* `pkg/manager/service.go` (`WatchAgents`, `WatchIntercepts`, `CreateIntercept`,
  `RemoveIntercept`),
* `pkg/version/version.go` (`init`, `Structured`),

followed by the properties proved about them.
-/

namespace Telepresence

/-! ## Part 1: `systema.go`, the reference-counted connection pool -/

/-- A Go `error` value, identified by its message. `Option GoError` is a Go `error`
that may be `nil`. -/
abbrev GoError := String

/-- A `systemarpc.SystemACRUDClient` handle, identified by a number. -/
abbrev SystemACRUDClient := Nat

/-- A lifetime scope made by `context.WithCancel`, identified by a number. The
`context.Context` and its `context.CancelFunc` carry the same number. -/
abbrev Scope := Nat

/-- The `wait func() error` handed back by `systema.ConnectToSystemA`: calling it
blocks until the connection has shut down and returns `result`. -/
structure WaitFn where
  result : Option GoError
  deriving DecidableEq

/-- What `systema.ConnectToSystemA` returns when it is called: either `(client, wait, nil)`
or an error. The function lives outside the embedded files, so its result is an input of
the model. -/
inductive ConnectOutcome where
  | ok (client : SystemACRUDClient) (wait : WaitFn)
  | fail (err : GoError)
  deriving DecidableEq

/-- The fields of `type systemaPool struct` other than `mgr` and the mutex. `none` is Go's
`nil`. `count` is an `int64` in the source and an `Int` here: it moves by one per call
(`count_within_calls` below), so it stays within the 64-bit range, and the two agree, on
every run of fewer than `2 ^ 63` calls. -/
structure systemaPool where
  count : Int
  ctx : Option Scope
  cancel : Option Scope
  client : Option SystemACRUDClient
  wait : Option WaitFn
  deriving DecidableEq

/-- Embeds `NewSystemAPool`: every field other than `mgr` has its zero value. -/
def NewSystemAPool : systemaPool :=
  { count := 0, ctx := none, cancel := none, client := none, wait := none }

/-- Observable actions of the pool on its surroundings. -/
inductive Effect where
  /-- A call of `systema.ConnectToSystemA(ctx, ...)` with the context of this scope. -/
  | connect (scope : Scope)
  /-- A call of the `cancel` function of this scope. -/
  | cancel (scope : Scope)
  /-- A call of this `wait` function, which returned its result. -/
  | wait (w : WaitFn)
  deriving DecidableEq

/-- The pool together with what surrounds it: the supply of fresh scopes for
`context.WithCancel` and the log of actions performed so far. -/
structure World where
  pool : systemaPool
  nextScope : Scope
  log : List Effect
  deriving DecidableEq

/-- A world holding a freshly made pool. -/
def newWorld : World := { pool := NewSystemAPool, nextScope := 0, log := [] }

/-- What a call on the pool hands back to its caller. -/
inductive Ret where
  /-- The pair `(client, err)` returned by `Get`. -/
  | got (client : Option SystemACRUDClient) (err : Option GoError)
  /-- The `err` returned by `Done`. -/
  | finished (err : Option GoError)
  /-- A panic of `Done` on calling a nil function value. -/
  | panicked
  deriving DecidableEq

/-- Embeds `systemaPool.Get`. `conn` is what `ConnectToSystemA` answers should this call
reach it. -/
def Get (w : World) (conn : ConnectOutcome) : World × Ret :=
  let p := w.pool
  match p.ctx with
  | none =>
    -- ctx, cancel := context.WithCancel(...)
    let s := w.nextScope
    -- client, wait, err := systema.ConnectToSystemA(ctx, ...)
    match conn with
    | ConnectOutcome.fail err =>
      -- cancel(); return nil, err
      ({ pool := p, nextScope := s + 1, log := w.log ++ [Effect.connect s, Effect.cancel s] },
        Ret.got none (some err))
    | ConnectOutcome.ok client wait =>
      -- p.ctx, p.cancel, p.client, p.wait = ctx, cancel, client, wait
      -- p.count++ ; return p.client, nil
      ({ pool := { count := p.count + 1, ctx := some s, cancel := some s,
                   client := some client, wait := some wait },
         nextScope := s + 1, log := w.log ++ [Effect.connect s] },
        Ret.got (some client) none)
  | some _ =>
    -- p.count++ ; return p.client, nil
    ({ w with pool := { p with count := p.count + 1 } }, Ret.got p.client none)

/-- Embeds `systemaPool.Done`. -/
def Done (w : World) : World × Ret :=
  let p := w.pool
  -- p.count--
  let p1 : systemaPool := { p with count := p.count - 1 }
  if p1.count = 0 then
    match p1.cancel with
    | none => ({ w with pool := p1 }, Ret.panicked)                 -- p.cancel() on nil
    | some s =>
      match p1.wait with
      | none => ({ w with pool := p1, log := w.log ++ [Effect.cancel s] }, Ret.panicked)
      | some wt =>
        -- p.cancel(); err = p.wait(); p.ctx, p.cancel, p.client, p.wait = nil, nil, nil, nil
        ({ w with pool := { count := p1.count, ctx := none, cancel := none, client := none,
                            wait := none },
                  log := w.log ++ [Effect.cancel s, Effect.wait wt] },
          Ret.finished wt.result)
  else
    ({ w with pool := p1 }, Ret.finished none)

/-- One call on the pool. -/
inductive Call where
  | get (conn : ConnectOutcome)
  | done
  deriving DecidableEq

/-- Perform one call. -/
def step (w : World) : Call → World × Ret
  | Call.get conn => Get w conn
  | Call.done => Done w

/-- The world after performing the calls in order. -/
def exec (w : World) : List Call → World
  | [] => w
  | c :: cs => exec (step w c).1 cs

/-- The pool holds an open connection: `ctx`, `cancel`, `client` and `wait` are all set. -/
def systemaPool.isOpen (p : systemaPool) : Prop :=
  p.ctx.isSome = true ∧ p.cancel.isSome = true ∧ p.client.isSome = true ∧ p.wait.isSome = true

/-- The pool holds no connection: `ctx`, `cancel`, `client` and `wait` are all unset. -/
def systemaPool.isEmpty (p : systemaPool) : Prop :=
  p.ctx = none ∧ p.cancel = none ∧ p.client = none ∧ p.wait = none

instance (p : systemaPool) : Decidable p.isOpen := by
  unfold systemaPool.isOpen; infer_instance

instance (p : systemaPool) : Decidable p.isEmpty := by
  unfold systemaPool.isEmpty; infer_instance

/-- The world can be reached from a new pool by some calls. -/
def Reachable (w : World) : Prop := ∃ cs : List Call, w = exec newWorld cs

/-- Invariant of arbitrary runs: the pool is either empty with a count of at most zero, or
open. -/
def PoolInv (p : systemaPool) : Prop :=
  (p.isEmpty ∧ p.count ≤ 0) ∨ p.isOpen

/-- The fields of `rpc.ClientInfo` that the embedded code reads, with the descriptor's name
and install ID. -/
structure ClientInfo where
  Name : String
  InstallId : String
  BearerToken : String
  deriving DecidableEq

/-- The loop of `GetRequestMetadata`: `token` is the `BearerToken` of the first client, in
iteration order, whose token is not empty, and stays `""` when there is none. -/
def pickToken : List ClientInfo → String
  | [] => ""
  | client :: rest => if client.BearerToken ≠ "" then client.BearerToken else pickToken rest

/-- Embeds `systemaCredentials.GetRequestMetadata`. `clients` is what `c.mgr.state.GetAllClients()`
returns, in the order the `range` loop visits it, and `clusterID` is
`c.mgr.env.AmbassadorClusterID`. The Go map of the result is a list of key/value pairs. -/
def GetRequestMetadata (clients : List ClientInfo) (clusterID : String) :
    Except GoError (List (String × String)) :=
  let token := pickToken clients
  if token = "" then
    Except.error "no token has been provided by a client"
  else
    Except.ok [("X-Telepresence-ManagerID", clusterID), ("Authorization", "Bearer " ++ token)]

/-! ## Part 3: `service.go`, the RPC handlers -/

/-- The gRPC status codes used by the handlers. -/
inductive Code where
  | NotFound
  | InvalidArgument
  | AlreadyExists
  deriving DecidableEq

/-- An `error` returned by a handler: either `status.Errorf(code, format, args...)`, kept as
the call's arguments, or the error that `stream.Send` returned. -/
inductive RpcError where
  | status (code : Code) (format : String) (args : List String)
  | transport (err : GoError)
  deriving DecidableEq

/-- The fields of `rpc.InterceptSpec` the handlers read (`Name`), and the rest of the
requested redirection as one field. -/
structure InterceptSpec where
  Name : String
  Target : String
  deriving DecidableEq

/-- An `rpc.InterceptInfo`: the spec and the identifier given to the intercept. -/
structure InterceptInfo where
  Spec : InterceptSpec
  Id : String
  deriving DecidableEq

/-- An `rpc.AgentInfo` descriptor. -/
structure AgentInfo where
  Name : String
  deriving DecidableEq

/-- The entry `State.Get` returns for a session; `Context` is its lifecycle scope. -/
structure SessionState where
  Context : Scope
  deriving DecidableEq

/-- An `rpc.CreateInterceptRequest` with its session and spec present. -/
structure CreateInterceptRequest where
  SessionId : String
  InterceptSpec : InterceptSpec
  deriving DecidableEq

/-- An `rpc.RemoveInterceptRequest2` with its session present. -/
structure RemoveInterceptRequest2 where
  SessionId : String
  Name : String
  deriving DecidableEq

/-- Modelled from the spec: the methods of the registry `State` that the handlers call; the
type `State` and its methods are declared outside the embedded files. `σ` is the registry's
state. The reads (`HasClient`, `Get`, `GetAgents`, `GetIntercepts`) are consistent
point-in-time reads that change nothing; `AddIntercept` and `RemoveIntercept` are the
mutating operations and give the state after them. -/
structure StateOps (σ : Type) where
  HasClient : σ → String → Bool
  Get : σ → String → Option SessionState
  GetAgents : σ → List AgentInfo
  GetIntercepts : σ → String → List InterceptInfo
  AddIntercept : σ → String → InterceptSpec → σ × InterceptInfo
  RemoveIntercept : σ → String → String → σ × Bool

/-- The loop `for _, cept := range ... { if cept.Spec.Name == spec.Name { return ... } }` of
`CreateIntercept`: whether some intercept of the list has this name. -/
def hasName (name : String) : List InterceptInfo → Bool
  | [] => false
  | cept :: rest => if cept.Spec.Name = name then true else hasName name rest

/-- Embeds `Manager.CreateIntercept`. `validateIntercept` is the package's validator, which is
declared outside the embedded files: it returns `""` for an acceptable spec and a message
otherwise. The result is the registry state after the call and what the call returns. -/
def CreateIntercept {σ : Type} (ops : StateOps σ) (validateIntercept : InterceptSpec → String)
    (state : σ) (ciReq : CreateInterceptRequest) : σ × Except RpcError InterceptInfo :=
  let sessionID := ciReq.SessionId
  let spec := ciReq.InterceptSpec
  if !ops.HasClient state sessionID then
    (state,
      Except.error (RpcError.status Code.NotFound "Client session %q not found" [sessionID]))
  else if validateIntercept spec ≠ "" then
    (state, Except.error (RpcError.status Code.InvalidArgument (validateIntercept spec) []))
  else if hasName spec.Name (ops.GetIntercepts state sessionID) then
    (state, Except.error
      (RpcError.status Code.AlreadyExists "Intercept named %q already exists" [spec.Name]))
  else
    ((ops.AddIntercept state sessionID spec).1,
      Except.ok (ops.AddIntercept state sessionID spec).2)

/-- Embeds `Manager.RemoveIntercept`. `Except.ok ()` is the empty acknowledgement. -/
def RemoveIntercept {σ : Type} (ops : StateOps σ) (state : σ) (riReq : RemoveInterceptRequest2) :
    σ × Except RpcError Unit :=
  let sessionID := riReq.SessionId
  let name := riReq.Name
  if !ops.HasClient state sessionID then
    (state,
      Except.error (RpcError.status Code.NotFound "Client session %q not found" [sessionID]))
  else if !(ops.RemoveIntercept state sessionID name).2 then
    ((ops.RemoveIntercept state sessionID name).1,
      Except.error (RpcError.status Code.NotFound "Intercept named %q not found" [name]))
  else
    ((ops.RemoveIntercept state sessionID name).1, Except.ok ())

/-- What the `select` of a watch loop takes. -/
inductive WatchEvent where
  /-- Case `<-changed`: a wake for this watch's category. -/
  | changed
  /-- Case `<-ctx.Done()`: the caller's stream was cancelled. -/
  | ctxDone
  /-- Case `<-sessionCtx.Done()`: the session's lifecycle ended. -/
  | sessionDone
  deriving DecidableEq

/-- How a watch handler ends on a finite list of events. -/
inductive WatchEnd where
  /-- The handler returned this `error` (`none` is `nil`). -/
  | returned (err : Option RpcError)
  /-- Every event was taken and the handler is suspended in its `select`. -/
  | waiting
  /-- The handler called `Context()` on a nil entry. -/
  | nilEntry
  deriving DecidableEq

/-- The `for` loop shared by `WatchAgents` and `WatchIntercepts`. `snapshot i` is the result
built for the `i`-th pass (from the registry as it is then), `send i` is what the `i`-th
call of `stream.Send` returns, `evs` are the events the `select` takes, in order. The result
lists the snapshots passed to `stream.Send`, in order, and how the handler ends. -/
def watchLoop {α : Type} (snapshot : Nat → α) (send : Nat → Option RpcError) :
    Nat → List WatchEvent → List α × WatchEnd
  | i, evs =>
    match send i with
    | some err => ([snapshot i], WatchEnd.returned (some err))
    | none =>
      match evs with
      | [] => ([snapshot i], WatchEnd.waiting)
      | WatchEvent.changed :: rest =>
        (snapshot i :: (watchLoop snapshot send (i + 1) rest).1,
          (watchLoop snapshot send (i + 1) rest).2)
      | WatchEvent.ctxDone :: _ => ([snapshot i], WatchEnd.returned none)
      | WatchEvent.sessionDone :: _ => ([snapshot i], WatchEnd.returned none)

/-- Embeds `Manager.WatchAgents`. `states i` is the registry when the `i`-th snapshot is read
(`states 0` also when the session is looked up). -/
def WatchAgents {σ : Type} (ops : StateOps σ) (states : Nat → σ) (sessionID : String)
    (send : Nat → Option RpcError) (evs : List WatchEvent) :
    List (List AgentInfo) × WatchEnd :=
  if !ops.HasClient (states 0) sessionID then
    ([], WatchEnd.returned
      (some (RpcError.status Code.NotFound "Client session %q not found" [sessionID])))
  else
    match ops.Get (states 0) sessionID with
    | none => ([], WatchEnd.nilEntry)
    | some _ => watchLoop (fun i => ops.GetAgents (states i)) send 0 evs

/-- Embeds `Manager.WatchIntercepts`. -/
def WatchIntercepts {σ : Type} (ops : StateOps σ) (states : Nat → σ) (sessionID : String)
    (send : Nat → Option RpcError) (evs : List WatchEvent) :
    List (List InterceptInfo) × WatchEnd :=
  match ops.Get (states 0) sessionID with
  | none =>
    ([], WatchEnd.returned
      (some (RpcError.status Code.NotFound "Session %q not found" [sessionID])))
  | some _ => watchLoop (fun i => ops.GetIntercepts (states i) sessionID) send 0 evs

/-- The number of wakes taken before the first cancellation or session-done event. -/
def wakesBefore : List WatchEvent → Nat
  | WatchEvent.changed :: rest => wakesBefore rest + 1
  | _ => 0

/-- Whether a cancellation or session-done event follows the leading wakes. -/
def hasTerminator : List WatchEvent → Bool
  | [] => false
  | WatchEvent.changed :: rest => hasTerminator rest
  | _ => true

/-- Modelled from the spec: the kind of a session with its descriptor; the session entries
of the registry are declared outside the embedded files. -/
inductive SessionKind where
  | client (info : ClientInfo)
  | agent (info : AgentInfo)
  deriving DecidableEq

/-- Modelled from the spec: one registered session of the registry, whose code is outside
the embedded files: its ID, its kind with the descriptor, and its lifecycle scope. -/
structure Session where
  id : String
  kind : SessionKind
  lifecycle : Scope
  deriving DecidableEq

/-- Modelled from the spec: the registry `State`, whose code is outside the embedded files:
the sessions, the intercepts (each with the ID of the client session that owns it), and the
counter from which identifiers are assigned. -/
structure State where
  sessions : List Session
  intercepts : List (String × InterceptInfo)
  counter : Nat
  deriving DecidableEq

/-- Modelled from the spec: `State.Get`, missing from the embedded files: the entry of the
session with this ID, or nil. -/
def State.Get (s : State) (sessionID : String) : Option SessionState :=
  (s.sessions.find? (fun e => e.id = sessionID)).map (fun e => ⟨e.lifecycle⟩)

/-- Modelled from the spec: `State.HasClient`, missing from the embedded files: whether the
ID is that of a registered client session. -/
def State.HasClient (s : State) (sessionID : String) : Bool :=
  match s.sessions.find? (fun e => e.id = sessionID) with
  | some e => match e.kind with
    | SessionKind.client _ => true
    | SessionKind.agent _ => false
  | none => false

/-- Modelled from the spec: `State.GetAgents`, missing from the embedded files: the
descriptors of the registered agents. -/
def State.GetAgents (s : State) : List AgentInfo :=
  s.sessions.filterMap (fun e => match e.kind with
    | SessionKind.agent info => some info
    | SessionKind.client _ => none)

/-- Modelled from the spec: `State.GetIntercepts`, missing from the embedded files: the
intercept records owned by this session. -/
def State.GetIntercepts (s : State) (sessionID : String) : List InterceptInfo :=
  (s.intercepts.filter (fun o => o.1 = sessionID)).map (fun o => o.2)

/-- Modelled from the spec: `State.AddIntercept`, missing from the embedded files: registers
an intercept for the session and returns the materialized record, the spec plus an assigned
identifier. -/
def State.AddIntercept (s : State) (sessionID : String) (spec : InterceptSpec) :
    State × InterceptInfo :=
  let cept : InterceptInfo := { Spec := spec, Id := sessionID ++ ":" ++ toString (s.counter + 1) }
  ({ s with intercepts := s.intercepts ++ [(sessionID, cept)], counter := s.counter + 1 }, cept)

/-- Modelled from the spec: `State.RemoveIntercept`, missing from the embedded files: removes
the session's intercept of this name if present and reports whether it was. -/
def State.RemoveIntercept (s : State) (sessionID : String) (name : String) : State × Bool :=
  if hasName name (s.GetIntercepts sessionID) then
    ({ s with
        intercepts := s.intercepts.filter
          (fun o => !(decide (o.1 = sessionID) && decide (o.2.Spec.Name = name))) },
      true)
  else (s, false)

/-- The modelled registry as the operations the handlers use. -/
def specOps : StateOps State where
  HasClient := State.HasClient
  Get := State.Get
  GetAgents := State.GetAgents
  GetIntercepts := State.GetIntercepts
  AddIntercept := State.AddIntercept
  RemoveIntercept := State.RemoveIntercept

/-- The intercept names of every session are pairwise distinct. -/
def NamesDistinct {σ : Type} (ops : StateOps σ) (s : σ) : Prop :=
  ∀ sessionID : String, ((ops.GetIntercepts s sessionID).map (fun c => c.Spec.Name)).Nodup

/-- The registry after a sequence of `CreateIntercept` calls. -/
def createAll {σ : Type} (ops : StateOps σ) (validateIntercept : InterceptSpec → String) :
    σ → List CreateInterceptRequest → σ
  | s, [] => s
  | s, r :: rs => createAll ops validateIntercept (CreateIntercept ops validateIntercept s r).1 rs

/-- A sample registry: one client session that owns one intercept, and one agent session. -/
def sampleState : State :=
  { sessions := [⟨"c1", SessionKind.client ⟨"laptop", "install-1", "token-1"⟩, 1⟩,
                 ⟨"a1", SessionKind.agent ⟨"echo"⟩, 2⟩],
    intercepts := [("c1", ⟨⟨"svc-b", "echo:8080"⟩, "c1:1"⟩)],
    counter := 1 }

/-- A sample validator: a spec needs a name and a target. -/
def sampleValidate (spec : InterceptSpec) : String :=
  if spec.Name = "" then "a name is required"
  else if spec.Target = "" then "a target is required"
  else ""

/-- Sample events: two wakes, then the caller cancels; what follows is never taken. -/
def sampleEvents : List WatchEvent :=
  [WatchEvent.changed, WatchEvent.changed, WatchEvent.ctxDone, WatchEvent.changed]

/-! ## Part 4: `version.go` -/

/-- The first `if`/`else` of `version.init`, taken when `Version` was not set at build time:
the main module's version from the build info when there is one, `"(unknown version)"`
otherwise. -/
def version.fallback (buildInfo : Option String) : String :=
  match buildInfo with
  | some mainVersion => if mainVersion ≠ "" then mainVersion else "(unknown version)"
  | none => "(unknown version)"

/-- Embeds `version.init`. `parse` is `semver.ParseTolerant` (of the third-party package
`github.com/blang/semver`), `none` being an error; `Version` is the value set at build time
with `--ldflags -X` (`""` when it was not set); `buildInfo` is `info.Main.Version` when
`debug.ReadBuildInfo` reports `ok` and `none` when it does not; `env` is
`os.Getenv("TELEPRESENCE_VERSION")`. The result is the value of `Version` after `init`, or
`none` when `init` panics. -/
def version.init {V : Type} (parse : String → Option V) (Version : String)
    (buildInfo : Option String) (env : String) : Option String :=
  if Version = "" then
    let Version1 := version.fallback buildInfo
    match parse Version1 with
    | some _ => some Version1
    | none =>
      if Version1 ≠ "" ∧ Version1 ≠ "(devel)" ∧ Version1 ≠ "(unknown version)" then
        none
      else if "v".data.isPrefixOf env.data then
        some env
      else
        some Version1
  else
    some Version

/-- Embeds `version.Structured`, for the given value of `Version`: the parsed version, or `none`
when it reaches its panic branch. -/
def version.Structured {V : Type} (parse : String → Option V) (Version : String) : Option V :=
  let vs :=
    if Version = "(devel)" then "0.0.0-devel"
    else if Version = "(unknown version)" then "0.0.0-unknownversion"
    else Version
  parse vs

/-! ### The third-party parser

`semver.ParseTolerant` belongs to `github.com/blang/semver`, not to this repository. The
properties of `init` below hold for every parser; the following model of the package's
parser (the v3 line) is used where a concrete parser is needed. -/

/-- A pre-release identifier (`semver.PRVersion`). -/
structure PRVersion where
  VersionStr : String
  VersionNum : Nat
  IsNum : Bool
  deriving DecidableEq

/-- A parsed version (`semver.Version`). -/
structure SemVer where
  Major : Nat
  Minor : Nat
  Patch : Nat
  Pre : List PRVersion
  Build : List String
  deriving DecidableEq

namespace semver

/-- Models `unicode.IsSpace`. -/
def isSpace (c : Char) : Bool :=
  c = '\t' || c = '\n' || c.toNat = 0x0B || c.toNat = 0x0C || c = '\r' || c = ' ' ||
  c.toNat = 0x85 || c.toNat = 0xA0 || c.toNat = 0x1680 ||
  (0x2000 ≤ c.toNat && c.toNat ≤ 0x200A) || c.toNat = 0x2028 || c.toNat = 0x2029 ||
  c.toNat = 0x202F || c.toNat = 0x205F || c.toNat = 0x3000

/-- Models `strings.TrimSpace`. -/
def trimSpace (s : List Char) : List Char :=
  ((s.dropWhile isSpace).reverse.dropWhile isSpace).reverse

/-- Models `strings.TrimPrefix(s, "v")`. -/
def trimV : List Char → List Char
  | 'v' :: rest => rest
  | s => s

/-- Models `strings.Split(s, sep)` for a one-character separator. -/
def split (sep : Char) : List Char → List (List Char)
  | [] => [[]]
  | c :: rest =>
    if c = sep then [] :: split sep rest
    else
      match split sep rest with
      | [] => [[c]]
      | h :: t => (c :: h) :: t

/-- Models `strings.SplitN(s, sep, n)` for a one-character separator and `n ≥ 1`: at most `n`
parts, the last one holding the unsplit rest. -/
def splitN (sep : Char) : Nat → List Char → List (List Char)
  | 0, _ => []
  | 1, s => [s]
  | _ + 2, [] => [[]]
  | n + 2, c :: rest =>
    if c = sep then [] :: splitN sep (n + 1) rest
    else
      match splitN sep (n + 2) rest with
      | [] => [[c]]
      | h :: t => (c :: h) :: t

/-- Models `containsOnly(s, numbers)`. -/
def onlyNumbers (s : List Char) : Bool := s.all Char.isDigit

/-- Models `containsOnly(s, alphanum)`: letters, digits and the hyphen. -/
def onlyAlphanum (s : List Char) : Bool := s.all (fun c => c.isAlpha || c.isDigit || c = '-')

/-- Models `hasLeadingZeroes`. -/
def hasLeadingZeroes : List Char → Bool
  | '0' :: _ :: _ => true
  | _ => false

/-- The value of a string of decimal digits. -/
def digitsValue (s : List Char) : Nat :=
  s.foldl (fun acc c => 10 * acc + (c.toNat - '0'.toNat)) 0

/-- A numeric component: digits only, no leading zero, not empty, within 64 bits
(`strconv.ParseUint(s, 10, 64)`). -/
def parseNumber (s : List Char) : Option Nat :=
  if !onlyNumbers s then none
  else if hasLeadingZeroes s then none
  else if s.isEmpty then none
  else if 2 ^ 64 ≤ digitsValue s then none
  else some (digitsValue s)

/-- Models `semver.NewPRVersion`. -/
def NewPRVersion (s : List Char) : Option PRVersion :=
  if s.isEmpty then none
  else if onlyNumbers s then
    if hasLeadingZeroes s then none
    else if 2 ^ 64 ≤ digitsValue s then none
    else some { VersionStr := "", VersionNum := digitsValue s, IsNum := true }
  else if onlyAlphanum s then
    some { VersionStr := String.mk s, VersionNum := 0, IsNum := false }
  else none

/-- One build meta data identifier: not empty, letters, digits and hyphens only. -/
def parseBuild (s : List Char) : Option String :=
  if s.isEmpty then none
  else if onlyAlphanum s then some (String.mk s)
  else none

/-- The part of `s` before the first `c` and the part after it, when `c` occurs
(`strings.IndexRune`). -/
def cutAt (c : Char) (s : List Char) : Option (List Char × List Char) :=
  if s.contains c then
    some (s.takeWhile (fun d => d ≠ c), (s.dropWhile (fun d => d ≠ c)).drop 1)
  else none

/-- Models `semver.Parse`. -/
def Parse (s : List Char) : Option SemVer :=
  if s.isEmpty then none
  else
    match splitN '.' 3 s with
    | [p0, p1, p2] =>
      match parseNumber p0, parseNumber p1 with
      | some major, some minor =>
        let (patchStr1, build) :=
          match cutAt '+' p2 with
          | some (before, after) => (before, split '.' after)
          | none => (p2, [])
        let (patchStr, prerelease) :=
          match cutAt '-' patchStr1 with
          | some (before, after) => (before, split '.' after)
          | none => (patchStr1, [])
        match parseNumber patchStr, prerelease.mapM NewPRVersion, build.mapM parseBuild with
        | some patch, some pre, some bld =>
          some { Major := major, Minor := minor, Patch := patch, Pre := pre, Build := bld }
        | _, _, _ => none
      | _, _ => none
    | _ => none

/-- Models `semver.ParseTolerant`: trims spaces, drops a leading `v`, fills a version with fewer
than three parts up with `0` parts (which must not carry pre-release or build data), and
parses the result. -/
def ParseTolerant (str : String) : Option SemVer :=
  let s := trimV (trimSpace str.data)
  let parts := splitN '.' 3 s
  if parts.length < 3 then
    if (parts.getLast?.getD []).any (fun c => c = '+' || c = '-') then none
    else
      Parse (List.intercalate ['.'] (parts ++ List.replicate (3 - parts.length) ['0']))
  else Parse s

end semver

/-! ## Properties of the connection pool -/

theorem poolInv_new : PoolInv NewSystemAPool := by
  left; simp [NewSystemAPool, systemaPool.isEmpty]

theorem poolInv_empty_of_ctx_none {p : systemaPool} (h : PoolInv p) (hc : p.ctx = none) :
    p.isEmpty := by
  rcases h with h | h
  · exact h.1
  · have := h.1; rw [hc] at this; simp at this

theorem step_poolInv (w : World) (c : Call) (h : PoolInv w.pool) :
    PoolInv (step w c).1.pool ∧ (step w c).2 ≠ Ret.panicked := by
  cases c with
  | get conn =>
    rcases h with ⟨⟨h1, h2, h3, h4⟩, hle⟩ | hO
    · cases conn with
      | ok cl wt =>
        refine ⟨Or.inr ?_, ?_⟩ <;> simp [step, Get, h1, systemaPool.isOpen]
      | fail err =>
        have hp : (step w (Call.get (ConnectOutcome.fail err))).1.pool = w.pool := by
          simp [step, Get, h1]
        refine ⟨?_, ?_⟩
        · rw [hp]; exact Or.inl ⟨⟨h1, h2, h3, h4⟩, hle⟩
        · simp [step, Get, h1]
    · obtain ⟨s, hs1⟩ := Option.isSome_iff_exists.1 hO.1
      refine ⟨Or.inr ?_, ?_⟩
      · simpa [step, Get, hs1, systemaPool.isOpen] using hO
      · simp [step, Get, hs1]
  | done =>
    rcases h with ⟨⟨h1, h2, h3, h4⟩, hle⟩ | hO
    · have hne : ¬ (w.pool.count - 1 = 0) := by omega
      refine ⟨Or.inl ?_, ?_⟩
      · simp only [step, Done, hne, if_false]
        exact ⟨⟨h1, h2, h3, h4⟩, by simp; omega⟩
      · simp [step, Done, hne]
    · obtain ⟨s, hs1⟩ := Option.isSome_iff_exists.1 hO.2.1
      obtain ⟨wt, hw1⟩ := Option.isSome_iff_exists.1 hO.2.2.2
      by_cases h0 : w.pool.count - 1 = 0
      · refine ⟨Or.inl ?_, ?_⟩ <;> simp [step, Done, h0, hs1, hw1, systemaPool.isEmpty]
      · refine ⟨Or.inr ?_, ?_⟩
        · simpa [step, Done, h0, systemaPool.isOpen] using hO
        · simp [step, Done, h0]

theorem exec_poolInv (cs : List Call) :
    ∀ w : World, PoolInv w.pool → PoolInv (exec w cs).pool := by
  induction cs with
  | nil => intro w h; exact h
  | cons c cs ih => intro w h; exact ih _ (step_poolInv w c h).1

theorem reachable_poolInv {w : World} (h : Reachable w) : PoolInv w.pool := by
  obtain ⟨cs, rfl⟩ := h
  exact exec_poolInv cs newWorld poolInv_new

theorem step_count (w : World) (c : Call) :
    ((step w c).1.pool.count - w.pool.count).natAbs ≤ 1 := by
  cases c with
  | get conn =>
    cases hctx : w.pool.ctx with
    | none => cases conn <;> simp [step, Get, hctx]
    | some s => simp [step, Get, hctx]
  | done =>
    by_cases h0 : w.pool.count - 1 = 0
    · have h1 : w.pool.count = 1 := by omega
      cases hc : w.pool.cancel with
      | none => simp [step, Done, hc, h1]
      | some s =>
        cases hw : w.pool.wait with
        | none => simp [step, Done, hc, hw, h1]
        | some wt => simp [step, Done, hc, hw, h1]
    · simp [step, Done, h0]

/-- The counter moves by at most one per call: after the calls `cs` on a new pool its
absolute value is at most the number of calls, so an `int64` holds it without wrapping on
every run of fewer than `2 ^ 63` calls. -/
theorem count_within_calls (cs : List Call) :
    ∀ w : World, ((exec w cs).pool.count - w.pool.count).natAbs ≤ cs.length := by
  induction cs with
  | nil => intro w; simp [exec]
  | cons c cs ih =>
    intro w
    have h1 := step_count w c
    have h2 := ih (step w c).1
    simp only [exec, List.length_cons]
    omega

/-- C3: when `Get` returns an error, that error is the one `ConnectToSystemA` returned, no
client is returned, the scope made for the attempt is cancelled right after the connect,
the pool is exactly as before the call (so `count` is unchanged), and `ctx` was unset on
entry; on a pool reached from a new one the pool is empty before and after. -/
theorem get_failure_leaves_pool (w : World) (conn : ConnectOutcome)
    (cl : Option SystemACRUDClient) (e : GoError)
    (h : (Get w conn).2 = Ret.got cl (some e)) :
    conn = ConnectOutcome.fail e ∧ cl = none ∧
    (Get w conn).1.log = w.log ++ [Effect.connect w.nextScope, Effect.cancel w.nextScope] ∧
    (Get w conn).1.pool = w.pool ∧
    w.pool.ctx = none ∧
    (Reachable w → w.pool.isEmpty ∧ (Get w conn).1.pool.isEmpty) := by
  cases hctx : w.pool.ctx with
  | some s => simp [Get, hctx] at h
  | none =>
    cases conn with
    | ok c wt => simp [Get, hctx] at h
    | fail err =>
      simp [Get, hctx] at h
      obtain ⟨h1, h2⟩ := h
      subst h1 h2
      refine ⟨rfl, rfl, by simp [Get, hctx], by simp [Get, hctx], rfl, fun hr => ?_⟩
      have hE := poolInv_empty_of_ctx_none (reachable_poolInv hr) hctx
      exact ⟨hE, by simpa [Get, hctx] using hE⟩

theorem get_failure_leaves_pool_witness :
    (Get (exec newWorld [Call.done]) (ConnectOutcome.fail "refused")).1.pool.count = -1 ∧
    (Get (exec newWorld [Call.done]) (ConnectOutcome.fail "refused")).1.pool
      = (exec newWorld [Call.done]).pool ∧
    (Get (exec newWorld [Call.done]) (ConnectOutcome.fail "refused")).1.pool.isEmpty :=
  ⟨by decide,
   (get_failure_leaves_pool (exec newWorld [Call.done]) (ConnectOutcome.fail "refused") none
      "refused" (by decide)).2.2.2.1,
   ((get_failure_leaves_pool (exec newWorld [Call.done]) (ConnectOutcome.fail "refused") none
      "refused" (by decide)).2.2.2.2.2 ⟨[Call.done], rfl⟩).2⟩

theorem pickToken_eq_empty_iff (clients : List ClientInfo) :
    pickToken clients = "" ↔ ∀ c ∈ clients, c.BearerToken = "" := by
  induction clients with
  | nil => simp [pickToken]
  | cons c cs ih =>
    by_cases h : c.BearerToken = ""
    · simp [pickToken, h, ih]
    · simp [pickToken, h]

theorem pickToken_mem (clients : List ClientInfo) (h : pickToken clients ≠ "") :
    ∃ c ∈ clients, c.BearerToken ≠ "" ∧ pickToken clients = c.BearerToken := by
  induction clients with
  | nil => simp [pickToken] at h
  | cons c cs ih =>
    by_cases hc : c.BearerToken = ""
    · have h2 : pickToken cs ≠ "" := by simpa [pickToken, hc] using h
      obtain ⟨d, hd, hne, heq⟩ := ih h2
      exact ⟨d, List.mem_cons_of_mem _ hd, hne, by simpa [pickToken, hc] using heq⟩
    · exact ⟨c, List.mem_cons_self _ _, hc, by simp [pickToken, hc]⟩

/-- C7: `GetRequestMetadata` returns an error (and no metadata) exactly when no registered
client has a non-empty `BearerToken`; when it succeeds the metadata consists of the two
entries `X-Telepresence-ManagerID`, the configured cluster ID, and `Authorization`,
`"Bearer "` followed by the non-empty token of some registered client. -/
theorem metadata_fails_iff_no_token (clients : List ClientInfo) (clusterID : String) :
    ((∃ e, GetRequestMetadata clients clusterID = Except.error e) ↔
      ∀ c ∈ clients, c.BearerToken = "") ∧
    ((∃ md, GetRequestMetadata clients clusterID = Except.ok md) ↔
      ∃ c ∈ clients, c.BearerToken ≠ "") ∧
    (∀ md, GetRequestMetadata clients clusterID = Except.ok md →
      md.length = 2 ∧
      ∃ c ∈ clients, c.BearerToken ≠ "" ∧
        md = [("X-Telepresence-ManagerID", clusterID),
              ("Authorization", "Bearer " ++ c.BearerToken)]) := by
  by_cases h : pickToken clients = ""
  · have hall := (pickToken_eq_empty_iff clients).1 h
    refine ⟨⟨fun _ => hall,
      fun _ => ⟨"no token has been provided by a client", by simp [GetRequestMetadata, h]⟩⟩,
      ⟨?_, ?_⟩, ?_⟩
    · rintro ⟨md, hmd⟩; simp [GetRequestMetadata, h] at hmd
    · rintro ⟨c, hc, hne⟩; exact absurd (hall c hc) hne
    · intro md hmd; simp [GetRequestMetadata, h] at hmd
  · obtain ⟨c, hc, hne, heq⟩ := pickToken_mem clients h
    refine ⟨⟨?_, fun hall => absurd (hall c hc) hne⟩,
      ⟨fun _ => ⟨c, hc, hne⟩, fun _ => ?_⟩, ?_⟩
    · rintro ⟨e, he⟩; simp [GetRequestMetadata, h] at he
    · exact ⟨[("X-Telepresence-ManagerID", clusterID),
        ("Authorization", "Bearer " ++ pickToken clients)], by simp [GetRequestMetadata, h]⟩
    · intro md hmd
      simp only [GetRequestMetadata, h, if_false, Except.ok.injEq] at hmd
      subst hmd
      exact ⟨rfl, c, hc, hne, by rw [heq]⟩

theorem metadata_fails_iff_no_token_witness :
    GetRequestMetadata [⟨"ci", "install-0", ""⟩, ⟨"laptop", "install-1", "token-1"⟩] "cluster-9" =
      Except.ok [("X-Telepresence-ManagerID", "cluster-9"), ("Authorization", "Bearer token-1")] ∧
    (∃ e, GetRequestMetadata [⟨"ci", "install-0", ""⟩] "cluster-9" = Except.error e) :=
  ⟨by rfl,
   (metadata_fails_iff_no_token [⟨"ci", "install-0", ""⟩] "cluster-9").1.2 (by decide)⟩

/-! ## Properties of the intercept handlers -/

theorem hasName_iff (name : String) (l : List InterceptInfo) :
    hasName name l = true ↔ ∃ cept ∈ l, cept.Spec.Name = name := by
  induction l with
  | nil => simp [hasName]
  | cons c cs ih =>
    by_cases h : c.Spec.Name = name
    · simp [hasName, h]
    · simp [hasName, h, ih]

theorem hasName_iff_mem (name : String) (l : List InterceptInfo) :
    hasName name l = true ↔ name ∈ l.map (fun c => c.Spec.Name) := by
  rw [hasName_iff]; simp

/-- C8: `RemoveIntercept` fails with `NotFound` exactly when the session is not a known
client session or `State.RemoveIntercept` reports false; in every other case it returns the
empty acknowledgement and no error. When the session is not a known client the registry
state is the one before the call, and otherwise it is the one `State.RemoveIntercept`
leaves. -/
theorem removeIntercept_notFound_iff {σ : Type} (ops : StateOps σ) (state : σ)
    (riReq : RemoveInterceptRequest2) :
    ((∃ format args, (RemoveIntercept ops state riReq).2 =
        Except.error (RpcError.status Code.NotFound format args)) ↔
      (ops.HasClient state riReq.SessionId = false ∨
        (ops.RemoveIntercept state riReq.SessionId riReq.Name).2 = false)) ∧
    (¬ (ops.HasClient state riReq.SessionId = false ∨
        (ops.RemoveIntercept state riReq.SessionId riReq.Name).2 = false) →
      (RemoveIntercept ops state riReq).2 = Except.ok ()) ∧
    ((∃ e, (RemoveIntercept ops state riReq).2 = Except.error e) ∨
      (RemoveIntercept ops state riReq).2 = Except.ok ()) ∧
    (ops.HasClient state riReq.SessionId = false → (RemoveIntercept ops state riReq).1 = state) ∧
    (ops.HasClient state riReq.SessionId = true →
      (RemoveIntercept ops state riReq).1 =
        (ops.RemoveIntercept state riReq.SessionId riReq.Name).1) := by
  cases h : ops.HasClient state riReq.SessionId <;>
    cases hr : (ops.RemoveIntercept state riReq.SessionId riReq.Name).2 <;>
    simp [RemoveIntercept, h, hr]

theorem removeIntercept_notFound_iff_witness :
    (RemoveIntercept specOps sampleState ⟨"c1", "svc-b"⟩).2 = Except.ok () ∧
    (RemoveIntercept specOps sampleState ⟨"c1", "svc-b"⟩).1.GetIntercepts "c1" = [] ∧
    (∃ format args, (RemoveIntercept specOps sampleState ⟨"c1", "svc-a"⟩).2 =
      Except.error (RpcError.status Code.NotFound format args)) ∧
    (RemoveIntercept specOps sampleState ⟨"a1", "svc-b"⟩).1 = sampleState :=
  ⟨(removeIntercept_notFound_iff specOps sampleState ⟨"c1", "svc-b"⟩).2.1 (by decide),
   by decide,
   (removeIntercept_notFound_iff specOps sampleState ⟨"c1", "svc-a"⟩).1.2 (Or.inr (by decide)),
   (removeIntercept_notFound_iff specOps sampleState ⟨"a1", "svc-b"⟩).2.2.2.1 (by decide)⟩

/-- For the modelled registry, `State.RemoveIntercept` reports false exactly when the
session has no intercept of that name. -/
theorem state_removeIntercept_false_iff (s : State) (sessionID name : String) :
    (s.RemoveIntercept sessionID name).2 = false ↔
      ∀ cept ∈ s.GetIntercepts sessionID, cept.Spec.Name ≠ name := by
  cases hh : hasName name (s.GetIntercepts sessionID) with
  | true =>
    obtain ⟨c, hc, hn⟩ := (hasName_iff _ _).1 hh
    simp only [State.RemoveIntercept, hh, if_true]
    constructor
    · intro h; cases h
    · intro h; exact absurd hn (h c hc)
  | false =>
    simp only [State.RemoveIntercept, hh]
    constructor
    · intro _ c hc hn
      have := (hasName_iff name (s.GetIntercepts sessionID)).2 ⟨c, hc, hn⟩
      rw [hh] at this; cases this
    · intro _; rfl

/-! ## Properties of the watch loops -/

theorem range_succ_map_shift {α : Type} (f : Nat → α) (i n : Nat) :
    (List.range (n + 1 + 1)).map (fun m => f (i + m)) =
      f i :: (List.range (n + 1)).map (fun m => f (i + 1 + m)) := by
  rw [List.range_succ_eq_map (n + 1)]
  simp only [List.map_cons, List.map_map, Nat.add_zero]
  congr 1
  apply List.map_congr_left
  intro m _
  simp only [Function.comp, Nat.succ_eq_add_one]
  congr 1
  omega

theorem watchLoop_first_send_fails {α : Type} (snapshot : Nat → α)
    (send : Nat → Option RpcError) (i : Nat) (evs : List WatchEvent) (e : RpcError)
    (h : send i = some e) :
    watchLoop snapshot send i evs = ([snapshot i], WatchEnd.returned (some e)) := by
  cases evs with
  | nil => rw [watchLoop]; simp [h]
  | cons ev rest => cases ev <;> (rw [watchLoop]; simp [h])

theorem watchLoop_send_fails {α : Type} (snapshot : Nat → α) (send : Nat → Option RpcError)
    (evs : List WatchEvent) :
    ∀ (i j : Nat) (e : RpcError), j ≤ wakesBefore evs → send (i + j) = some e →
      (∀ m, m < j → send (i + m) = none) →
      watchLoop snapshot send i evs =
        ((List.range (j + 1)).map (fun m => snapshot (i + m)), WatchEnd.returned (some e)) := by
  induction evs with
  | nil =>
    intro i j e hj hs _
    have : j = 0 := by simpa [wakesBefore] using hj
    subst this
    rw [watchLoop]
    simp only [Nat.add_zero] at hs
    simp [hs, List.range_succ]
  | cons ev rest ih =>
    intro i j e hj hs hbefore
    cases j with
    | zero =>
      simp only [Nat.add_zero] at hs
      rw [watchLoop_first_send_fails snapshot send i _ e hs]
      simp [List.range_succ]
    | succ j =>
      have h0 : send i = none := by simpa using hbefore 0 (Nat.succ_pos j)
      cases ev with
      | changed =>
        have hj1 : j ≤ wakesBefore rest := by simpa [wakesBefore] using hj
        have hs1 : send (i + 1 + j) = some e := by rw [← hs]; congr 1; omega
        have hb1 : ∀ m, m < j → send (i + 1 + m) = none := by
          intro m hm
          have := hbefore (m + 1) (by omega)
          rw [← this]; congr 1; omega
        rw [watchLoop]
        simp only [h0, ih (i + 1) j e hj1 hs1 hb1]
        rw [range_succ_map_shift]
      | ctxDone => simp [wakesBefore] at hj
      | sessionDone => simp [wakesBefore] at hj

theorem watchLoop_sends_ok {α : Type} (snapshot : Nat → α) (send : Nat → Option RpcError)
    (evs : List WatchEvent) :
    ∀ (i : Nat), (∀ m, m ≤ wakesBefore evs → send (i + m) = none) →
      watchLoop snapshot send i evs =
        ((List.range (wakesBefore evs + 1)).map (fun m => snapshot (i + m)),
          if hasTerminator evs = true then WatchEnd.returned none else WatchEnd.waiting) := by
  induction evs with
  | nil =>
    intro i hs
    have h0 : send i = none := by simpa using hs 0 (Nat.zero_le _)
    rw [watchLoop]
    simp [h0, wakesBefore, hasTerminator, List.range_succ]
  | cons ev rest ih =>
    intro i hs
    have h0 : send i = none := by simpa using hs 0 (Nat.zero_le _)
    cases ev with
    | changed =>
      have hs1 : ∀ m, m ≤ wakesBefore rest → send (i + 1 + m) = none := by
        intro m hm
        have := hs (m + 1) (by simp [wakesBefore]; omega)
        rw [← this]; congr 1; omega
      rw [watchLoop]
      simp only [h0, ih (i + 1) hs1, wakesBefore, hasTerminator]
      rw [range_succ_map_shift]
    | ctxDone =>
      rw [watchLoop]
      simp [h0, wakesBefore, hasTerminator, List.range_succ]
    | sessionDone =>
      rw [watchLoop]
      simp [h0, wakesBefore, hasTerminator, List.range_succ]

/-- C6: for a known session, on every finite list of events taken by the `select` and every
outcome of the sends, `WatchIntercepts` (and `WatchAgents`, when the session is a client)
behaves as follows, `k` being the number of wakes before the first cancellation or
session-done event. If the `j`-th send (`j ≤ k`, counting from 0) is the first to fail, the
handler has sent the snapshots `0..j`, one before any wait and one after each of `j` wakes,
and returns exactly that send's error. If the sends `0..k` all succeed, it has sent exactly
`k + 1` snapshots, and returns nil if a cancellation or session-done event follows the `k`
wakes, being suspended in its `select` otherwise. -/
theorem watch_loop_protocol {σ : Type} (ops : StateOps σ) (states : Nat → σ)
    (sessionID : String) (send : Nat → Option RpcError) (evs : List WatchEvent)
    (hknown : (ops.Get (states 0) sessionID).isSome = true) :
    (∀ (j : Nat) (e : RpcError), j ≤ wakesBefore evs → send j = some e →
      (∀ m, m < j → send m = none) →
      WatchIntercepts ops states sessionID send evs =
        ((List.range (j + 1)).map (fun m => ops.GetIntercepts (states m) sessionID),
          WatchEnd.returned (some e)) ∧
      (ops.HasClient (states 0) sessionID = true →
        WatchAgents ops states sessionID send evs =
          ((List.range (j + 1)).map (fun m => ops.GetAgents (states m)),
            WatchEnd.returned (some e)))) ∧
    ((∀ m, m ≤ wakesBefore evs → send m = none) →
      WatchIntercepts ops states sessionID send evs =
        ((List.range (wakesBefore evs + 1)).map (fun m => ops.GetIntercepts (states m) sessionID),
          if hasTerminator evs = true then WatchEnd.returned none else WatchEnd.waiting) ∧
      (WatchIntercepts ops states sessionID send evs).1.length = wakesBefore evs + 1 ∧
      (ops.HasClient (states 0) sessionID = true →
        WatchAgents ops states sessionID send evs =
          ((List.range (wakesBefore evs + 1)).map (fun m => ops.GetAgents (states m)),
            if hasTerminator evs = true then WatchEnd.returned none else WatchEnd.waiting) ∧
        (WatchAgents ops states sessionID send evs).1.length = wakesBefore evs + 1)) := by
  obtain ⟨entry, hentry⟩ := Option.isSome_iff_exists.1 hknown
  refine ⟨fun j e hj hs hb => ⟨?_, fun hc => ?_⟩, fun hs => ?_⟩
  · have := watchLoop_send_fails (fun i => ops.GetIntercepts (states i) sessionID) send evs 0 j e
      hj (by simpa using hs) (by simpa using hb)
    simpa [WatchIntercepts, hentry] using this
  · have := watchLoop_send_fails (fun i => ops.GetAgents (states i)) send evs 0 j e
      hj (by simpa using hs) (by simpa using hb)
    simpa [WatchAgents, hentry, hc] using this
  · have hI := watchLoop_sends_ok (fun i => ops.GetIntercepts (states i) sessionID) send evs 0
      (by simpa using hs)
    have hA := watchLoop_sends_ok (fun i => ops.GetAgents (states i)) send evs 0
      (by simpa using hs)
    have hI2 : WatchIntercepts ops states sessionID send evs =
        ((List.range (wakesBefore evs + 1)).map (fun m => ops.GetIntercepts (states m) sessionID),
          if hasTerminator evs = true then WatchEnd.returned none else WatchEnd.waiting) := by
      simpa [WatchIntercepts, hentry] using hI
    refine ⟨hI2, by rw [hI2]; simp, fun hc => ?_⟩
    have hA2 : WatchAgents ops states sessionID send evs =
        ((List.range (wakesBefore evs + 1)).map (fun m => ops.GetAgents (states m)),
          if hasTerminator evs = true then WatchEnd.returned none else WatchEnd.waiting) := by
      simpa [WatchAgents, hentry, hc] using hA
    exact ⟨hA2, by rw [hA2]; simp⟩

theorem watch_loop_protocol_witness :
    (specOps.Get sampleState "c1").isSome = true ∧
    (∀ m, m ≤ wakesBefore sampleEvents → (fun _ : Nat => (none : Option RpcError)) m = none) ∧
    WatchIntercepts specOps (fun _ => sampleState) "c1" (fun _ => none) sampleEvents =
      ([[⟨⟨"svc-b", "echo:8080"⟩, "c1:1"⟩], [⟨⟨"svc-b", "echo:8080"⟩, "c1:1"⟩],
        [⟨⟨"svc-b", "echo:8080"⟩, "c1:1"⟩]], WatchEnd.returned none) ∧
    (WatchAgents specOps (fun _ => sampleState) "c1" (fun _ => none) sampleEvents).1.length = 3 :=
  ⟨by decide, fun _ _ => rfl,
   ((watch_loop_protocol specOps (fun _ => sampleState) "c1" (fun _ => none) sampleEvents
      (by decide)).2 (fun _ _ => rfl)).1,
   (((watch_loop_protocol specOps (fun _ => sampleState) "c1" (fun _ => none) sampleEvents
      (by decide)).2 (fun _ _ => rfl)).2.2 (by decide)).2⟩

/-! ## Uniqueness of intercept names (modelled registry) -/

theorem state_getIntercepts_addIntercept (s : State) (sessionID : String) (spec : InterceptSpec)
    (other : String) :
    (s.AddIntercept sessionID spec).1.GetIntercepts other =
      if other = sessionID then s.GetIntercepts other ++ [(s.AddIntercept sessionID spec).2]
      else s.GetIntercepts other := by
  by_cases h : other = sessionID
  · subst h
    simp [State.AddIntercept, State.GetIntercepts, List.filter_append]
  · have h2 : ¬ sessionID = other := fun e => h e.symm
    simp [State.AddIntercept, State.GetIntercepts, List.filter_append, h, h2]

theorem state_hasClient_addIntercept (s : State) (sessionID : String) (spec : InterceptSpec)
    (other : String) :
    (s.AddIntercept sessionID spec).1.HasClient other = s.HasClient other := by
  simp [State.AddIntercept, State.HasClient]

theorem state_addIntercept_spec (s : State) (sessionID : String) (spec : InterceptSpec) :
    (s.AddIntercept sessionID spec).2.Spec = spec := by
  simp [State.AddIntercept]

theorem createIntercept_namesDistinct (validateIntercept : InterceptSpec → String) (s : State)
    (ciReq : CreateInterceptRequest) (hd : NamesDistinct specOps s) :
    NamesDistinct specOps (CreateIntercept specOps validateIntercept s ciReq).1 := by
  unfold CreateIntercept
  simp only
  split_ifs with h1 h2 h3
  · exact hd
  · exact hd
  · exact hd
  · intro other
    show (((s.AddIntercept ciReq.SessionId ciReq.InterceptSpec).1.GetIntercepts other).map
      (fun c => c.Spec.Name)).Nodup
    rw [state_getIntercepts_addIntercept]
    by_cases ho : other = ciReq.SessionId
    · subst ho
      simp only [if_true, List.map_append, List.map_cons, List.map_nil,
        state_addIntercept_spec]
      have hnot : ciReq.InterceptSpec.Name ∉
          (s.GetIntercepts ciReq.SessionId).map (fun c => c.Spec.Name) := by
        intro hmem
        exact h3 ((hasName_iff_mem _ _).2 hmem)
      refine List.Nodup.append (hd ciReq.SessionId) (List.nodup_singleton _) ?_
      intro x hx hx2
      rw [List.mem_singleton] at hx2
      subst hx2
      exact hnot hx
    · simp only [ho, if_false]
      exact hd other

theorem createAll_namesDistinct (validateIntercept : InterceptSpec → String)
    (reqs : List CreateInterceptRequest) :
    ∀ s : State, NamesDistinct specOps s →
      NamesDistinct specOps (createAll specOps validateIntercept s reqs) := by
  induction reqs with
  | nil => intro s hd; exact hd
  | cons r rs ih =>
    intro s hd
    exact ih _ (createIntercept_namesDistinct validateIntercept s r hd)

theorem createIntercept_then_named (validateIntercept : InterceptSpec → String) (s : State)
    (sessionID : String) (spec : InterceptSpec) (hc : s.HasClient sessionID = true)
    (hv : validateIntercept spec = "") :
    (CreateIntercept specOps validateIntercept s ⟨sessionID, spec⟩).1.HasClient sessionID = true ∧
    hasName spec.Name
      ((CreateIntercept specOps validateIntercept s ⟨sessionID, spec⟩).1.GetIntercepts sessionID)
      = true := by
  have hc2 : specOps.HasClient s sessionID = true := hc
  cases h3 : hasName spec.Name (s.GetIntercepts sessionID) with
  | true =>
    have h3b : hasName spec.Name (specOps.GetIntercepts s sessionID) = true := h3
    have hs : (CreateIntercept specOps validateIntercept s ⟨sessionID, spec⟩).1 = s := by
      simp [CreateIntercept, hc2, hv, h3b]
    rw [hs]; exact ⟨hc, h3⟩
  | false =>
    have h3b : hasName spec.Name (specOps.GetIntercepts s sessionID) = false := h3
    have hs : (CreateIntercept specOps validateIntercept s ⟨sessionID, spec⟩).1 =
        (s.AddIntercept sessionID spec).1 := by
      simp only [CreateIntercept, hc2, hv, h3b]
      simp [specOps]
    rw [hs, state_hasClient_addIntercept, state_getIntercepts_addIntercept]
    refine ⟨hc, ?_⟩
    rw [hasName_iff]
    exact ⟨(s.AddIntercept sessionID spec).2, by simp, by rw [state_addIntercept_spec]⟩

/-- C5: on the modelled registry, for a client session and a spec that `validateIntercept`
accepts, the second of two `CreateIntercept` calls in sequence fails with `AlreadyExists`
and leaves the registry as the first call left it; when the intercept names of every session
were pairwise distinct before, the session's list then holds exactly one entry of that name;
and any sequence of `CreateIntercept` calls keeps the names of every session pairwise
distinct. -/
theorem create_twice_already_exists (validateIntercept : InterceptSpec → String) (s : State)
    (sessionID : String) (spec : InterceptSpec) (hc : s.HasClient sessionID = true)
    (hv : validateIntercept spec = "") :
    CreateIntercept specOps validateIntercept
        (CreateIntercept specOps validateIntercept s ⟨sessionID, spec⟩).1 ⟨sessionID, spec⟩ =
      ((CreateIntercept specOps validateIntercept s ⟨sessionID, spec⟩).1,
        Except.error
          (RpcError.status Code.AlreadyExists "Intercept named %q already exists" [spec.Name])) ∧
    (NamesDistinct specOps s →
      (((createAll specOps validateIntercept s
          [⟨sessionID, spec⟩, ⟨sessionID, spec⟩]).GetIntercepts sessionID).map
        (fun c => c.Spec.Name)).count spec.Name = 1) ∧
    (∀ (s0 : State) (reqs : List CreateInterceptRequest), NamesDistinct specOps s0 →
      NamesDistinct specOps (createAll specOps validateIntercept s0 reqs)) := by
  obtain ⟨hc1, hn1⟩ := createIntercept_then_named validateIntercept s sessionID spec hc hv
  have hc1b : specOps.HasClient
      (CreateIntercept specOps validateIntercept s ⟨sessionID, spec⟩).1 sessionID = true := hc1
  have hn1b : hasName spec.Name (specOps.GetIntercepts
      (CreateIntercept specOps validateIntercept s ⟨sessionID, spec⟩).1 sessionID) = true := hn1
  have hsecond : CreateIntercept specOps validateIntercept
        (CreateIntercept specOps validateIntercept s ⟨sessionID, spec⟩).1 ⟨sessionID, spec⟩ =
      ((CreateIntercept specOps validateIntercept s ⟨sessionID, spec⟩).1,
        Except.error
          (RpcError.status Code.AlreadyExists "Intercept named %q already exists" [spec.Name])) := by
    generalize (CreateIntercept specOps validateIntercept s ⟨sessionID, spec⟩).1 = s1 at *
    simp [CreateIntercept, hc1b, hv, hn1b]
  refine ⟨hsecond, fun hd => ?_, fun s0 reqs hd0 => createAll_namesDistinct _ reqs s0 hd0⟩
  have hd1 := createIntercept_namesDistinct validateIntercept s ⟨sessionID, spec⟩ hd
  simp only [createAll, hsecond]
  exact List.count_eq_one_of_mem (hd1 sessionID) ((hasName_iff_mem _ _).1 hn1)

theorem create_twice_already_exists_witness :
    sampleState.HasClient "c1" = true ∧ sampleValidate ⟨"svc-a", "echo:8080"⟩ = "" ∧
    NamesDistinct specOps sampleState ∧
    (CreateIntercept specOps sampleValidate
        (CreateIntercept specOps sampleValidate sampleState ⟨"c1", ⟨"svc-a", "echo:8080"⟩⟩).1
        ⟨"c1", ⟨"svc-a", "echo:8080"⟩⟩).2 =
      Except.error
        (RpcError.status Code.AlreadyExists "Intercept named %q already exists" ["svc-a"]) ∧
    (((createAll specOps sampleValidate sampleState
        [⟨"c1", ⟨"svc-a", "echo:8080"⟩⟩, ⟨"c1", ⟨"svc-a", "echo:8080"⟩⟩]).GetIntercepts "c1").map
      (fun c => c.Spec.Name)).count "svc-a" = 1 := by
  have hd : NamesDistinct specOps sampleState := by
    intro sid
    by_cases h : sid = "c1"
    · subst h; decide
    · have h2 : ¬ "c1" = sid := fun e => h e.symm
      simp [specOps, State.GetIntercepts, sampleState, h2]
  have h := create_twice_already_exists sampleValidate sampleState "c1" ⟨"svc-a", "echo:8080"⟩
    (by decide) (by decide)
  exact ⟨by decide, by decide, hd, by rw [h.1], h.2.1 hd⟩

/-! ## Properties of `version.init` -/

/-- C9, as the code has it: a `Version` set at build time is kept as it is, unvalidated; when
it was not set and the `TELEPRESENCE_VERSION` override is not taken (the variable does not
start with `v`, or the fallback version parses), then whenever `init` completes without
panicking the resulting `Version` is `"(devel)"`, `"(unknown version)"` or accepted by the
parser, and `Structured` does not reach its panic branch, provided the parser accepts the
two stand-ins `"0.0.0-devel"` and `"0.0.0-unknownversion"`. -/
theorem init_version_parsable {V : Type} (parse : String → Option V) (Version : String)
    (buildInfo : Option String) (env : String) :
    (Version ≠ "" → version.init parse Version buildInfo env = some Version) ∧
    (Version = "" →
      ("v".data.isPrefixOf env.data = true → (parse (version.fallback buildInfo)).isSome = true) →
      ∀ v, version.init parse Version buildInfo env = some v →
        (v = "(devel)" ∨ v = "(unknown version)" ∨ (parse v).isSome = true) ∧
        ((parse "0.0.0-devel").isSome = true → (parse "0.0.0-unknownversion").isSome = true →
          (version.Structured parse v).isSome = true)) := by
  refine ⟨fun h => by simp [version.init, h], fun h hov v hv => ?_⟩
  have key : v = "(devel)" ∨ v = "(unknown version)" ∨ (parse v).isSome = true := by
    subst h
    simp only [version.init, if_true] at hv
    cases hp : parse (version.fallback buildInfo) with
    | some x =>
      simp only [hp, Option.some.injEq] at hv
      subst hv
      right; right; simp [hp]
    | none =>
      have hnov : ¬ ("v".data.isPrefixOf env.data = true) := by
        intro hpre
        have := hov hpre
        rw [hp] at this
        simp at this
      have hne : version.fallback buildInfo ≠ "" := by
        unfold version.fallback
        cases buildInfo with
        | none => decide
        | some mv =>
          by_cases hmv : mv = ""
          · simp [hmv]
          · simp [hmv]
      by_cases hbad : version.fallback buildInfo ≠ "" ∧ version.fallback buildInfo ≠ "(devel)" ∧
          version.fallback buildInfo ≠ "(unknown version)"
      · simp [hp, hbad] at hv
      · simp only [hp, hbad, hnov, if_false, Option.some.injEq] at hv
        simp only [Bool.false_eq_true, if_false, Option.some.injEq] at hv
        subst hv
        by_cases h1 : version.fallback buildInfo = "(devel)"
        · exact Or.inl h1
        · by_cases h2 : version.fallback buildInfo = "(unknown version)"
          · exact Or.inr (Or.inl h2)
          · exact absurd ⟨hne, h1, h2⟩ hbad
  refine ⟨key, fun hd hu => ?_⟩
  unfold version.Structured
  by_cases h1 : v = "(devel)"
  · simpa [h1] using hd
  · by_cases h2 : v = "(unknown version)"
    · simp only [h1, h2, if_false, if_true]
      exact hu
    · simp only [h1, h2, if_false]
      rcases key with k | k | k
      · exact absurd k h1
      · exact absurd k h2
      · exact k

theorem init_version_parsable_witness :
    version.init semver.ParseTolerant "" (some "(devel)") "2.0.0" = some "(devel)" ∧
    (version.Structured semver.ParseTolerant "(devel)").isSome = true ∧
    version.init semver.ParseTolerant "" (some "v0.3.1") "v9" = some "v0.3.1" :=
  ⟨by decide,
   (((init_version_parsable semver.ParseTolerant "" (some "(devel)") "2.0.0").2 rfl
      (fun h => absurd h (by decide)) "(devel)" (by decide)).2 (by decide) (by decide)),
   by decide⟩

/-- C9 as stated fails on the code. With the build-time `Version` set to `"garbage"`, `init`
completes and leaves it, and `Structured` reaches its panic branch; and with no build-time
`Version`, a `"(devel)"` build and `TELEPRESENCE_VERSION=vfoo`, `init` completes with
`Version = "vfoo"`, on which `Structured` reaches its panic branch too. -/
theorem init_version_counterexample :
    (version.init semver.ParseTolerant "garbage" none "" = some "garbage" ∧
      semver.ParseTolerant "garbage" = none ∧
      version.Structured semver.ParseTolerant "garbage" = none) ∧
    (version.init semver.ParseTolerant "" (some "(devel)") "vfoo" = some "vfoo" ∧
      semver.ParseTolerant "vfoo" = none ∧
      version.Structured semver.ParseTolerant "vfoo" = none) ∧
    ¬ (∀ (Version : String) (buildInfo : Option String) (env v : String),
        version.init semver.ParseTolerant Version buildInfo env = some v →
          (v = "(devel)" ∨ v = "(unknown version)" ∨ (semver.ParseTolerant v).isSome = true) ∧
          (version.Structured semver.ParseTolerant v).isSome = true) := by
  refine ⟨by decide, by decide, fun h => ?_⟩
  have h1 := (h "garbage" none "" "garbage" (by decide)).2
  revert h1
  decide

end Telepresence
